import Mathlib

/-!
Verification development for the request-parameter-to-query compiler
(dynamic filter / sort / pagination backends).

The Python source is shallowly embedded: parameter maps (Python dicts with
insertion order) become association lists `List (String × α)`; dict
assignment, removal and lookup become `dictInsert`, `dictRemove` and
`dictLookup`; the Python standard-library parsers `float(...)` and
`int(...)` are abstract parameters (`parseFloat : String → Option Rat`,
`parseInt : String → Option Int`); fallible data-store calls return
`Except PyExc`.
-/

/-- Association-list lookup modelling Python `dict.get` / `d[k]`. -/
def dictLookup {α : Type} (d : List (String × α)) (k : String) : Option α :=
  match d with
  | [] => none
  | (k', v) :: rest => if k' = k then some v else dictLookup rest k

/-- Association-list write modelling Python `d[k] = v`: if the key exists its
value is updated in place (insertion position kept), otherwise the pair is
appended at the end. -/
def dictInsert {α : Type} (k : String) (v : α) : List (String × α) → List (String × α)
  | [] => [(k, v)]
  | (k', v') :: rest => if k' = k then (k, v) :: rest else (k', v') :: dictInsert k v rest

/-- Association-list removal modelling Python `d.pop(k, None)`: removes the
first (for a dict: only) binding of `k`, if any. -/
def dictRemove {α : Type} (k : String) : List (String × α) → List (String × α)
  | [] => []
  | (k', v') :: rest => if k' = k then rest else (k', v') :: dictRemove k rest

theorem dictLookup_dictInsert_self {α : Type} (k : String) (v : α) (d : List (String × α)) :
    dictLookup (dictInsert k v d) k = some v := by
  induction d with
  | nil => simp [dictInsert, dictLookup]
  | cons hd tl ih =>
    obtain ⟨k', v'⟩ := hd
    by_cases h : k' = k
    · simp [dictInsert, h, dictLookup]
    · simp [dictInsert, h, dictLookup, ih]

theorem dictLookup_dictInsert_ne {α : Type} {k k' : String} (v : α) (d : List (String × α))
    (h : k ≠ k') : dictLookup (dictInsert k v d) k' = dictLookup d k' := by
  induction d with
  | nil => simp [dictInsert, dictLookup, h]
  | cons hd tl ih =>
    obtain ⟨k'', v''⟩ := hd
    by_cases h2 : k'' = k
    · subst h2
      simp [dictInsert, dictLookup, h]
    · simp [dictInsert, h2, dictLookup, ih]

theorem dictLookup_eq_none_of_not_mem_keys {α : Type} {k : String} {d : List (String × α)}
    (h : k ∉ d.map Prod.fst) : dictLookup d k = none := by
  induction d with
  | nil => simp [dictLookup]
  | cons hd tl ih =>
    obtain ⟨k', v'⟩ := hd
    simp only [List.map_cons, List.mem_cons] at h
    push_neg at h
    simp only [dictLookup, if_neg (Ne.symm h.1)]
    exact ih h.2

theorem dictLookup_dictRemove_self {α : Type} (k : String) (d : List (String × α))
    (hnd : (d.map Prod.fst).Nodup) : dictLookup (dictRemove k d) k = none := by
  induction d with
  | nil => simp [dictRemove, dictLookup]
  | cons hd tl ih =>
    obtain ⟨k', v'⟩ := hd
    simp only [List.map_cons, List.nodup_cons] at hnd
    by_cases h : k' = k
    · subst h
      simp only [dictRemove, if_pos rfl]
      exact dictLookup_eq_none_of_not_mem_keys hnd.1
    · simp only [dictRemove, if_neg h, dictLookup, if_neg h]
      exact ih hnd.2

theorem dictLookup_dictRemove_of_none {α : Type} (k k' : String) (d : List (String × α))
    (h : dictLookup d k' = none) : dictLookup (dictRemove k d) k' = none := by
  induction d with
  | nil => simp [dictRemove, dictLookup]
  | cons hd tl ih =>
    obtain ⟨k'', v''⟩ := hd
    simp only [dictLookup] at h
    by_cases h2 : k'' = k'
    · simp [h2] at h
    · simp only [if_neg h2] at h
      by_cases h3 : k'' = k
      · simp [dictRemove, h3, h]
      · simp only [dictRemove, if_neg h3, dictLookup, if_neg h2]
        exact ih h

theorem dictRemove_keys_sublist {α : Type} (k : String) (d : List (String × α)) :
    ((dictRemove k d).map Prod.fst).Sublist (d.map Prod.fst) := by
  induction d with
  | nil => simp [dictRemove]
  | cons hd tl ih =>
    obtain ⟨k', v'⟩ := hd
    by_cases h : k' = k
    · simp only [dictRemove, if_pos h, List.map_cons]
      exact (List.sublist_cons_self _ _)
    · simp only [dictRemove, if_neg h, List.map_cons]
      exact ih.cons₂ k'

theorem dictRemove_sublist {α : Type} (k : String) (d : List (String × α)) :
    (dictRemove k d).Sublist d := by
  induction d with
  | nil => simp [dictRemove]
  | cons hd tl ih =>
    obtain ⟨k', v'⟩ := hd
    by_cases h : k' = k
    · simp only [dictRemove, if_pos h]
      exact List.sublist_cons_self _ _
    · simp only [dictRemove, if_neg h]
      exact ih.cons₂ (k', v')

/-! ### Python string primitives

Lean's own `String.splitOn` etc. are not kernel-computable, so the Python
string operations the source uses (`str.split`, `str.startswith`, slicing,
`str.lower`, `"__".join`, `int(...)`, `float(...)` on digit strings) are
embedded as structural recursions over the character list. -/

/-- If `sep` is an initial run of `s`, the rest of `s`; otherwise `none`. -/
def dropSepFront : List Char → List Char → Option (List Char)
  | [], s => some s
  | _ :: _, [] => none
  | c :: cs, d :: ds => if c = d then dropSepFront cs ds else none

/-- Left-to-right non-overlapping split, fuelled by the input length. -/
def splitCharsGo (sep : List Char) : Nat → List Char → List Char → List (List Char)
  | _, acc, [] => [acc.reverse]
  | 0, acc, s => [acc.reverse ++ s]
  | fuel + 1, acc, c :: rest =>
    match dropSepFront sep (c :: rest) with
    | some remainder => acc.reverse :: splitCharsGo sep fuel [] remainder
    | none => splitCharsGo sep fuel (c :: acc) rest

/-- Python `s.split(sep)` for non-empty `sep`. -/
def pySplit (s sep : String) : List String :=
  (splitCharsGo sep.data s.data.length [] s.data).map String.mk

def startsWithChars : List Char → List Char → Bool
  | _, [] => true
  | [], _ :: _ => false
  | c :: cs, d :: ds => c = d && startsWithChars cs ds

/-- Python `s.startswith(p)`. -/
def pyStartsWith (s p : String) : Bool :=
  startsWithChars s.data p.data

/-- Python `s[n:]`. -/
def pyDrop (s : String) (n : Nat) : String :=
  String.mk (s.data.drop n)

/-- Python `s[:n]`. -/
def pyTake (s : String) (n : Nat) : String :=
  String.mk (s.data.take n)

def lowerChar (c : Char) : Char :=
  if 'A' ≤ c ∧ c ≤ 'Z' then Char.ofNat (c.toNat + 32) else c

/-- Python `s.lower()` (ASCII). -/
def pyLower (s : String) : String :=
  String.mk (s.data.map lowerChar)

def joinChars (sep : List Char) : List (List Char) → List Char
  | [] => []
  | [x] => x
  | x :: y :: xs => x ++ sep ++ joinChars sep (y :: xs)

/-- Python `sep.join(xs)`. -/
def pyJoin (sep : String) (xs : List String) : String :=
  String.mk (joinChars sep.data (xs.map String.data))

def digitVal (c : Char) : Option Nat :=
  if '0' ≤ c ∧ c ≤ '9' then some (c.toNat - '0'.toNat) else none

def natFromChars : List Char → Nat → Option Nat
  | [], acc => some acc
  | c :: cs, acc =>
    match digitVal c with
    | some d => natFromChars cs (acc * 10 + d)
    | none => none

/-- Python `int(s)` restricted to unsigned digit strings. -/
def pyToNat (s : String) : Option Nat :=
  if s.data.isEmpty then none else natFromChars s.data 0

/-! ### The lookup grammar (source: `DynamicFilterBackend.LOOKUP_EXPRESSIONS`) -/

/-- `LOOKUP_EXPRESSIONS`: suffix token ↦ emitted operator suffix, in source
declaration order. -/
def LOOKUP_EXPRESSIONS : List (String × String) :=
  [("exact", ""),
   ("iexact", "__iexact"),
   ("contains", "__contains"),
   ("icontains", "__icontains"),
   ("in", "__in"),
   ("gt", "__gt"),
   ("gte", "__gte"),
   ("lt", "__lt"),
   ("lte", "__lte"),
   ("startswith", "__startswith"),
   ("istartswith", "__istartswith"),
   ("endswith", "__endswith"),
   ("iendswith", "__iendswith"),
   ("range", "__range"),
   ("date", "__date"),
   ("year", "__year"),
   ("month", "__month"),
   ("day", "__day"),
   ("isnull", "__isnull")]

/-- Python `x in LOOKUP_EXPRESSIONS` (dict key membership). -/
def isLookupToken (s : String) : Bool :=
  (LOOKUP_EXPRESSIONS.map Prod.fst).contains s

/-- Python `LOOKUP_EXPRESSIONS.get(lookup, '')`. -/
def lookupExprOf (l : String) : String :=
  (dictLookup LOOKUP_EXPRESSIONS l).getD ""

/-- `RESERVED_KEYS`: keys never treated as filter fields. -/
def RESERVED_KEYS : List String := ["page", "page_size", "search", "sort"]

/-- Field/lookup resolution, lines 78–86 of `get_basic_filter_kwargs`:
`parts = key.split("__")`; if the last part is a known lookup token (the
source redundantly re-checks membership in `["in", "range"]`), the field is
the re-join of the other parts and the lookup is that last part; otherwise
the whole key is the field with lookup `exact`. -/
def resolve (key : String) : String × String :=
  let parts := pySplit key "__"
  if isLookupToken (parts.getLastD "") || ["in", "range"].contains (parts.getLastD "") then
    (pyJoin "__" parts.dropLast, parts.getLastD "")
  else
    (key, "exact")

/-! ### Basic filter compiler (source: `DynamicFilterBackend.get_basic_filter_kwargs`) -/

/-- Coerced clause values. Numeric comparison values (Python `float(...)`)
are modelled as rationals. -/
inductive FilterValue : Type
  | str (s : String)
  | list (xs : List String)
  | bool (b : Bool)
  | num (q : Rat)
deriving DecidableEq, Repr

/-- One compiled clause of the loop body of `get_basic_filter_kwargs`
(lines 68–114): `none` when the key is reserved or the clause is dropped
during coercion; otherwise the compiled filter key, the coerced value and
the exclude flag. `parseFloat` stands for Python's `float(...)`. -/
def clauseOf (parseFloat : String → Option Rat) (k v : String) :
    Option (String × FilterValue × Bool) :=
  if RESERVED_KEYS.contains k then none
  else
    let is_exclude := pyStartsWith k "!"
    let key := if is_exclude then pyDrop k 1 else k
    let field := (resolve key).1
    let lookup := (resolve key).2
    if !(isLookupToken lookup) && !(["in", "range"].contains lookup) then none
    else
      let coerced : Option FilterValue :=
        if lookup = "in" then some (.list (pySplit v ","))
        else if lookup = "range" then
          let xs := pySplit v ","
          if xs.length = 2 then some (.list xs) else none
        else if lookup = "isnull" then some (.bool (pyLower v = "true"))
        else if ["gt", "gte", "lt", "lte"].contains lookup then (parseFloat v).map .num
        else some (.str v)
      coerced.map (fun cv => (field ++ lookupExprOf lookup, cv, is_exclude))

/-- Accumulator: (`filter_kwargs`, `exclude_kwargs`), both Python dicts. -/
abbrev BasicAcc := List (String × FilterValue) × List (String × FilterValue)

/-- One iteration of the `for key, value in filters.items()` loop. -/
def basicStep (parseFloat : String → Option Rat) (acc : BasicAcc) (k v : String) : BasicAcc :=
  match clauseOf parseFloat k v with
  | none => acc
  | some (fk, cv, true) => (acc.1, dictInsert fk cv acc.2)
  | some (fk, cv, false) => (dictInsert fk cv acc.1, acc.2)

def basicGo (parseFloat : String → Option Rat) :
    List (String × String) → BasicAcc → BasicAcc
  | [], acc => acc
  | (k, v) :: rest, acc => basicGo parseFloat rest (basicStep parseFloat acc k v)

/-- `get_basic_filter_kwargs`: returns (`filter_kwargs`, `exclude_kwargs`). -/
def get_basic_filter_kwargs (parseFloat : String → Option Rat)
    (filters : List (String × String)) : BasicAcc :=
  basicGo parseFloat filters ([], [])

/-! ### Grouped filter compiler (source: `DynamicFilterBackend.apply_grouped_filters`) -/

/-- A predicate handed to the data store: `Q(**{k1: v1}) | Q(**{k2: v2}) | ...`,
an OR of keyword conditions. -/
abbrev Pred := List (String × FilterValue)

/-- Lookup detection for grouped keys (lines 158–164): the last `__`-separated
part if the key has more than one part and that part is a known lookup token,
else `icontains`. -/
def detectGroupLookup (key : String) : String :=
  let parts := pySplit key "__"
  if parts.length > 1 && isLookupToken (parts.getLastD "") then parts.getLastD ""
  else "icontains"

/-- The OR-predicate built for one matching key (lines 168–170): one keyword
condition per member field, each with the raw string value. -/
def groupPred (fields : List String) (lookup : String) (v : String) : Pred :=
  fields.map (fun f => (f ++ lookupExprOf lookup, FilterValue.str v))

/-- The inner `for incoming_key, value in list(filters.items())` loop for one
group: iterates over a snapshot of the working map, emitting one OR-predicate
per key with the group-key as a prefix and popping that key from the working
map. Returns the predicates in emission order and the reduced working map. -/
def groupScan (gk : String) (fields : List String) :
    List (String × String) → List (String × String) → List Pred × List (String × String)
  | [], filters => ([], filters)
  | (k, v) :: rest, filters =>
    if pyStartsWith k gk then
      let p := groupPred fields (detectGroupLookup k) v
      let r := groupScan gk fields rest (dictRemove k filters)
      (p :: r.1, r.2)
    else groupScan gk fields rest filters

/-- `apply_grouped_filters`, with the queryset side-effects reified: returns
the list of OR-predicates, in the order they are `.filter(...)`-applied
(i.e. ANDed) to the queryset, plus the reduced working parameter map. -/
def apply_grouped_filters :
    List (String × List String) → List (String × String) → List Pred × List (String × String)
  | [], filters => ([], filters)
  | (gk, fields) :: rest, filters =>
    let r := groupScan gk fields filters filters
    let r2 := apply_grouped_filters rest r.2
    (r.1 ++ r2.1, r2.2)

/-- `apply_search` (lines 118–128): the OR-predicate across search fields
with case-insensitive contains. -/
def searchPred (search_term : String) (search_fields : List String) : Pred :=
  search_fields.map (fun f => (f ++ "__icontains", FilterValue.str search_term))

/-! ### Sort compiler (source: `DynamicSort`) -/

structure SortSpec where
  field : String
  descending : Bool
deriving DecidableEq, Repr

/-- The view's `sort_fields` attribute: a list/tuple allow-list, or any
non-list value, which the source treats as "allow all". -/
inductive SortFieldsAttr : Type
  | unrestricted
  | allowed (fields : List String)
deriving DecidableEq, Repr

/-- `DynamicSort._is_valid_field`: unrestricted allows everything, otherwise
the root segment (text before the first `__`) must be in the allow-list. -/
def is_valid_field (field : String) (attr : SortFieldsAttr) : Bool :=
  match attr with
  | .unrestricted => true
  | .allowed sort_fields => sort_fields.contains ((pySplit field "__").headD "")

/-- `DynamicSort.get_sort_fields`: empty/absent sort parameter yields `[]`;
otherwise split on commas, strip a leading `-` as the descending marker,
keep only fields passing `is_valid_field`, in input order. -/
def get_sort_fields (sort_param : String) (attr : SortFieldsAttr) : List SortSpec :=
  if sort_param = "" then []
  else
    (pySplit sort_param ",").foldl
      (fun acc tok =>
        let is_descending := pyStartsWith tok "-"
        let field := if is_descending then pyDrop tok 1 else tok
        if is_valid_field field attr then acc ++ [⟨field, is_descending⟩] else acc)
      []

/-! ### Paginator (source: `PageNumberPagination`) -/

/-- An exception value crossing the orchestrator's `except` clauses.
The payload is the exception's message. -/
inductive PyExc : Type
  | valueError (msg : String)
  | validationError (msg : String)
  | other (msg : String)
deriving DecidableEq, Repr

instance {e a : Type} [DecidableEq e] [DecidableEq a] : DecidableEq (Except e a) := fun
  | .ok x, .ok y =>
    if h : x = y then isTrue (by rw [h]) else isFalse (by intro hh; cases hh; exact h rfl)
  | .ok _, .error _ => isFalse (by intro h; cases h)
  | .error _, .ok _ => isFalse (by intro h; cases h)
  | .error x, .error y =>
    if h : x = y then isTrue (by rw [h]) else isFalse (by intro hh; cases hh; exact h rfl)

def PyExc.msgOf : PyExc → String
  | .valueError m => m
  | .validationError m => m
  | .other m => m

/-- Whether the exception is caught by `except (ValueError, ValidationError)`. -/
def PyExc.isValueOrValidation : PyExc → Bool
  | .valueError _ => true
  | .validationError _ => true
  | .other _ => false

/-- `PageNumberPagination.get_page_size`: `parseInt` stands for Python's
`int(...)`; `page_size_attr` is the (possibly `None`) `page_size` class
attribute, `none` falling back to the literal 10. -/
def get_page_size (parseInt : String → Option Int) (filters : List (String × String))
    (page_size_attr : Option Int) (max_page_size : Int) : Int :=
  match dictLookup filters "page_size" with
  | some s =>
    match parseInt s with
    | some n => if n > 0 then min n max_page_size else page_size_attr.getD 10
    | none => page_size_attr.getD 10
  | none => page_size_attr.getD 10

/-- `PageNumberPagination.get_page_number`: the parsed integer is used as-is;
absent or unparseable falls back to 1. -/
def get_page_number (parseInt : String → Option Int) (filters : List (String × String)) : Int :=
  match dictLookup filters "page" with
  | some s =>
    match parseInt s with
    | some n => n
    | none => 1
  | none => 1

/-- Modelled from the spec: the data store's total page count used by the
external paginator (`django.core.paginator.Paginator.num_pages`, not part of
this repository): the ceiling of count/size, with an empty result set still
having one (empty) valid page. -/
def num_pages (count size : Int) : Int :=
  max 1 ((count + size - 1) / size)

/-- Modelled from the spec: the external paginator's page validity check
(`Paginator.page`, not part of this repository): a page number is valid
exactly when it lies in `[1, num_pages]`. -/
def paginatorPageValid (count size n : Int) : Bool :=
  1 ≤ n && n ≤ num_pages count size

/-- `PageNumberPagination.paginate_queryset`: resolves size and number, asks
the (spec-modelled) paginator for the page; an invalid page raises, and the
`except (PageNotAnInteger, EmptyPage)` clause re-raises it as a validation
error. On success the result is the page's slice bounds in the result set. -/
def paginate_queryset (parseInt : String → Option Int) (filters : List (String × String))
    (page_size_attr : Option Int) (max_page_size : Int) (count : Int) :
    Except PyExc (Int × Int) :=
  let size := get_page_size parseInt filters page_size_attr max_page_size
  let n := get_page_number parseInt filters
  if paginatorPageValid count size n then
    Except.ok ((n - 1) * size, min (n * size) count)
  else
    Except.error (PyExc.validationError "Invalid page number: invalid page")

/-! ### Filter orchestrator (source: `DynamicFilterBackend.filter_queryset`)

The data store (Django queryset) is abstract: its operations may raise. -/

structure Store (QS : Type) where
  filterP : QS → Pred → Except PyExc QS
  filterKw : QS → List (String × FilterValue) → Except PyExc QS
  excludeKw : QS → List (String × FilterValue) → Except PyExc QS
  distinctQ : QS → Except PyExc QS

/-- The inner loop of `apply_grouped_filters` with the queryset threaded
through the fallible store (`queryset = queryset.filter(q)` per match). -/
def groupScanQS {QS : Type} (st : Store QS) (gk : String) (fields : List String) :
    List (String × String) → QS → List (String × String) → Except PyExc (QS × List (String × String))
  | [], qs, filters => Except.ok (qs, filters)
  | (k, v) :: rest, qs, filters =>
    if pyStartsWith k gk then
      match st.filterP qs (groupPred fields (detectGroupLookup k) v) with
      | Except.error e => Except.error e
      | Except.ok qs' => groupScanQS st gk fields rest qs' (dictRemove k filters)
    else groupScanQS st gk fields rest qs filters

/-- `apply_grouped_filters` with the fallible store. -/
def applyGroupedQS {QS : Type} (st : Store QS) :
    List (String × List String) → QS → List (String × String) → Except PyExc (QS × List (String × String))
  | [], qs, filters => Except.ok (qs, filters)
  | (gk, fields) :: rest, qs, filters =>
    match groupScanQS st gk fields filters qs filters with
    | Except.error e => Except.error e
    | Except.ok r => applyGroupedQS st rest r.1 r.2

/-- The `try:` body of `filter_queryset` (lines 185–204): working copy of the
request's filters, grouped filters, basic filters, search, `distinct()`. -/
def filterBody {QS : Type} (st : Store QS) (parseFloat : String → Option Rat)
    (groups : List (String × List String)) (search_fields : List String)
    (request_filters : List (String × String)) (qs : QS) : Except PyExc QS :=
  let filters0 := request_filters
  match applyGroupedQS st groups qs filters0 with
  | Except.error e => Except.error e
  | Except.ok r =>
    let qs1 := r.1
    let filters := r.2
    let kw := get_basic_filter_kwargs parseFloat filters
    match (if kw.1.isEmpty then Except.ok qs1 else st.filterKw qs1 kw.1) with
    | Except.error e => Except.error e
    | Except.ok qs2 =>
      match (if kw.2.isEmpty then Except.ok qs2 else st.excludeKw qs2 kw.2) with
      | Except.error e => Except.error e
      | Except.ok qs3 =>
        let search_term := (dictLookup filters "search").getD ""
        match (if search_term ≠ "" ∧ search_fields ≠ [] then
                 st.filterP qs3 (searchPred search_term search_fields)
               else Except.ok qs3) with
        | Except.error e => Except.error e
        | Except.ok qs4 => st.distinctQ qs4

/-- `filter_queryset`: the body wrapped in
`except (ValueError, ValidationError) as e: raise ValidationError(...)`. -/
def filter_queryset {QS : Type} (st : Store QS) (parseFloat : String → Option Rat)
    (groups : List (String × List String)) (search_fields : List String)
    (request_filters : List (String × String)) (qs : QS) : Except PyExc QS :=
  match filterBody st parseFloat groups search_fields request_filters qs with
  | Except.ok q => Except.ok q
  | Except.error (PyExc.valueError m) =>
    Except.error (PyExc.validationError ("Invalid filter parameters: " ++ m))
  | Except.error (PyExc.validationError m) =>
    Except.error (PyExc.validationError ("Invalid filter parameters: " ++ m))
  | Except.error e => Except.error e

/-! ### Heap model of the orchestrator's parameter maps (for the
no-mutation-of-the-caller's-map property)

Python dicts are heap objects; `dict(request.filters)` allocates a fresh one
and `filters.pop(...)` mutates it in place. References are indices into a
list of dict cells. -/

structure Heap where
  cells : List (List (String × String))

def Heap.get (h : Heap) (r : Nat) : List (String × String) :=
  h.cells.getD r []

def Heap.set (h : Heap) (r : Nat) (d : List (String × String)) : Heap :=
  ⟨h.cells.set r d⟩

def Heap.alloc (h : Heap) (d : List (String × String)) : Heap × Nat :=
  (⟨h.cells ++ [d]⟩, h.cells.length)

/-- The inner grouped-filter loop with the working map held in the heap:
each matching key appends its predicate and pops the key in place. -/
def groupScanH (gk : String) (fields : List String) :
    List (String × String) → Heap → Nat → Heap × List Pred
  | [], h, _ => (h, [])
  | (k, v) :: rest, h, r =>
    if pyStartsWith k gk then
      let p := groupPred fields (detectGroupLookup k) v
      let h' := h.set r (dictRemove k (h.get r))
      let res := groupScanH gk fields rest h' r
      (res.1, p :: res.2)
    else groupScanH gk fields rest h r

def apply_grouped_filtersH :
    List (String × List String) → Heap → Nat → Heap × List Pred
  | [], h, _ => (h, [])
  | (gk, fields) :: rest, h, r =>
    let res := groupScanH gk fields (h.get r) h r
    let res2 := apply_grouped_filtersH rest res.1 r
    (res2.1, res.2 ++ res2.2)

/-- `filter_queryset` at the heap level, with the compiled filter stages
reified as data: `filters = dict(request.filters)` allocates the working
copy, the grouped stage mutates only that copy, and the basic and search
stages read it. Returns the final heap and the compiled
(grouped predicates, (include, exclude) clauses, search predicate). -/
def filter_querysetH (parseFloat : String → Option Rat)
    (groups : List (String × List String)) (search_fields : List String)
    (h : Heap) (requestRef : Nat) :
    Heap × (List Pred × BasicAcc × Option Pred) :=
  let a := h.alloc (h.get requestRef)
  let h1 := a.1
  let workingRef := a.2
  let g := apply_grouped_filtersH groups h1 workingRef
  let h2 := g.1
  let working := h2.get workingRef
  let kw := get_basic_filter_kwargs parseFloat working
  let search_term := (dictLookup working "search").getD ""
  let sp := if search_term ≠ "" ∧ search_fields ≠ [] then
              some (searchPred search_term search_fields)
            else none
  (h2, (g.2, kw, sp))

/-! ### Spec-level formalisations (written from the spec's wording, for
comparison with the source-derived definitions) -/

/-- Formalisation of the spec's resolve contract, taken literally: the key is
split at the RIGHTMOST occurrence of the separator `__`; if the segment after
it is a known suffix token it is the lookup and the text before it is the
field; otherwise exact match on the whole key. A key without a separator is
its own trailing segment. -/
def lastSepPos (key : String) : Option Nat :=
  ((List.range key.data.length).filter (fun i => pyTake (pyDrop key i) 2 = "__")).getLast?

def resolveRightSplit (key : String) : String × String :=
  match lastSepPos key with
  | some i =>
    let trailing := pyDrop key (i + 2)
    if isLookupToken trailing then (pyTake key i, trailing) else (key, "exact")
  | none => if isLookupToken key then ("", key) else (key, "exact")

/-- The amended resolve contract: segments are produced by a left-to-right
non-overlapping split on `__` (Python `str.split`), and the LAST SEGMENT of
that split is the trailing segment examined against the suffix table; the
field is the remaining segments re-joined. -/
def resolveLastSegment (key : String) : String × String :=
  let parts := pySplit key "__"
  if isLookupToken (parts.getLastD "") then
    (pyJoin "__" parts.dropLast, parts.getLastD "")
  else (key, "exact")

/-- Formalisation of the spec's sort contract (§4.5): split on commas, strip
a leading `-` as the descending marker, keep exactly the valid fields, in
input order. -/
def sortCompileSpec (sort_param : String) (attr : SortFieldsAttr) : List SortSpec :=
  if sort_param = "" then []
  else
    (pySplit sort_param ",").filterMap (fun tok =>
      let is_descending := pyStartsWith tok "-"
      let field := if is_descending then pyDrop tok 1 else tok
      if is_valid_field field attr then some ⟨field, is_descending⟩ else none)

/-- Formalisation of the spec's page-size contract (§4.6): if the `page_size`
parameter is present and parses to a positive integer, `min(value, max)`;
otherwise the configured default. -/
def pageSizeSpec (parseInt : String → Option Int) (filters : List (String × String))
    (configured max_page_size : Int) : Int :=
  match (dictLookup filters "page_size").bind parseInt with
  | some n => if 0 < n then min n max_page_size else configured
  | none => configured

/-- A concrete stand-in for Python `float(...)` on simple digit strings,
used by witnesses; the theorems themselves quantify over the parser. -/
def digitsToRat (s : String) : Option Rat :=
  (pyToNat s).map (fun n => (n : Rat))

/-- A concrete stand-in for Python `int(...)`, used by witnesses. -/
def strToInt (s : String) : Option Int :=
  match s.data with
  | '-' :: rest => if rest.isEmpty then none else (natFromChars rest 0).map (fun n => -(n : Int))
  | _ => (pyToNat s).map (fun n => (n : Int))

/-! ### Claim theorems -/

theorem sortFoldAux (attr : SortFieldsAttr) (toks : List String) (acc : List SortSpec) :
    toks.foldl
      (fun acc tok =>
        let is_descending := pyStartsWith tok "-"
        let field := if is_descending then pyDrop tok 1 else tok
        if is_valid_field field attr then acc ++ [⟨field, is_descending⟩] else acc) acc
    = acc ++ toks.filterMap
      (fun tok =>
        let is_descending := pyStartsWith tok "-"
        let field := if is_descending then pyDrop tok 1 else tok
        if is_valid_field field attr then some ⟨field, is_descending⟩ else none) := by
  induction toks generalizing acc with
  | nil => simp
  | cons t ts ih =>
    simp only [List.foldl_cons, List.filterMap_cons]
    by_cases h : is_valid_field (if pyStartsWith t "-" then pyDrop t 1 else t) attr
    · simp [h, ih]
    · simp [h, ih]

/-- C6: the Sort Compiler splits on commas, strips a leading `-` as the
descending marker, accepts every field under the unrestricted marker and
otherwise exactly the fields whose root segment is in the allow-list;
invalid fields are dropped silently and the valid entries keep their
relative input order — i.e. `get_sort_fields` computes exactly the spec's
order-preserving filterMap over the comma-split tokens. -/
theorem sort_compiler_matches_spec (sort_param : String) (attr : SortFieldsAttr) :
    get_sort_fields sort_param attr = sortCompileSpec sort_param attr := by
  unfold get_sort_fields sortCompileSpec
  by_cases hs : sort_param = ""
  · simp [hs]
  · simp only [hs, if_false]
    exact sortFoldAux attr (pySplit sort_param ",") []

/-- C7: the Paginator resolves the effective page size as
`min(value, max_page_size)` whenever the `page_size` parameter is present and
parses to a positive integer, and falls back to the configured default
(the `page_size` attribute, itself defaulting to 10) otherwise. -/
theorem page_size_matches_spec (parseInt : String → Option Int)
    (filters : List (String × String)) (page_size_attr : Option Int) (max_page_size : Int) :
    get_page_size parseInt filters page_size_attr max_page_size
      = pageSizeSpec parseInt filters (page_size_attr.getD 10) max_page_size := by
  unfold get_page_size pageSizeSpec
  cases h : dictLookup filters "page_size" with
  | none => simp [Option.bind]
  | some s =>
    cases hp : parseInt s with
    | none => simp [Option.bind, hp]
    | some n => simp [Option.bind, hp, Int.lt_iff_add_one_le]

/-- C4 counterexample: on the key `a___gt` (a field name ending in `_`),
splitting at the RIGHTMOST separator occurrence — the spec's wording — gives
field `a_` with lookup `gt`, but the source's left-to-right `split("__")`
makes the trailing segment `_gt`, which is no suffix token, so the code
resolves the whole key to an exact match. -/
theorem resolve_differs_from_right_split :
    resolve "a___gt" = ("a___gt", "exact") ∧
    resolveRightSplit "a___gt" = ("a_", "gt") ∧
    resolve "a___gt" ≠ resolveRightSplit "a___gt" := by
  decide

theorem inRangeTokens (t : String) (h : (["in", "range"] : List String).contains t = true) :
    isLookupToken t = true := by
  have h2 : t = "in" ∨ t = "range" := by simpa using h
  rcases h2 with rfl | rfl <;> decide

/-- C4 amended: lookup resolution splits the key into segments by a
left-to-right non-overlapping split on the separator and examines the LAST
SEGMENT of that split (which coincides with splitting from the right unless
separator occurrences overlap, i.e. a run of three or more underscores): if
it is a known suffix token it becomes the lookup and the remaining segments,
re-joined, become the field; otherwise the lookup defaults to exact match on
the whole key. -/
theorem resolve_matches_last_segment (key : String) :
    resolve key = resolveLastSegment key := by
  unfold resolve resolveLastSegment
  cases hb : (isLookupToken ((pySplit key "__").getLastD "")
      || (["in", "range"] : List String).contains ((pySplit key "__").getLastD "")) with
  | true =>
    have ht : isLookupToken ((pySplit key "__").getLastD "") = true := by
      rw [Bool.or_eq_true] at hb
      rcases hb with hh | hh
      · exact hh
      · exact inRangeTokens _ hh
    rw [if_pos hb, if_pos ht]
  | false =>
    have hab := hb
    simp only [Bool.or_eq_false_iff] at hab
    have h1 : ¬((isLookupToken ((pySplit key "__").getLastD "")
        || (["in", "range"] : List String).contains ((pySplit key "__").getLastD "")) = true) := by
      rw [hb]
      exact Bool.false_ne_true
    have h2 : ¬(isLookupToken ((pySplit key "__").getLastD "") = true) := by
      rw [hab.1]
      exact Bool.false_ne_true
    rw [if_neg h1, if_neg h2]

/-- The output category a clause lands in: `filter_kwargs` for include,
`exclude_kwargs` for exclude. -/
def basicSide (b : Bool) (acc : BasicAcc) : List (String × FilterValue) :=
  if b then acc.2 else acc.1

theorem basicGo_append (pf : String → Option Rat) (xs ys : List (String × String))
    (acc : BasicAcc) : basicGo pf (xs ++ ys) acc = basicGo pf ys (basicGo pf xs acc) := by
  induction xs generalizing acc with
  | nil => simp [basicGo]
  | cons hd tl ih =>
    obtain ⟨k, v⟩ := hd
    simp only [List.cons_append, basicGo]
    exact ih _

theorem basicGo_preserve (pf : String → Option Rat) (xs : List (String × String))
    (acc : BasicAcc) (fk : String) (b : Bool)
    (h : ∀ k' v' cv', (k', v') ∈ xs → clauseOf pf k' v' ≠ some (fk, cv', b)) :
    dictLookup (basicSide b (basicGo pf xs acc)) fk = dictLookup (basicSide b acc) fk := by
  induction xs generalizing acc with
  | nil => simp [basicGo]
  | cons hd tl ih =>
    obtain ⟨k1, v1⟩ := hd
    simp only [basicGo]
    rw [ih _ (fun k' v' cv' hm => h k' v' cv' (List.mem_cons_of_mem _ hm))]
    cases hc : clauseOf pf k1 v1 with
    | none => simp [basicStep, hc]
    | some triple =>
      obtain ⟨fk', cv', b'⟩ := triple
      have hne : b' = b → fk' ≠ fk := by
        intro hb hfk
        exact h k1 v1 cv' (List.mem_cons_self _ _) (by rw [hc, hfk, hb])
      cases b' <;> cases b <;>
        simp only [basicStep, hc, basicSide, if_true, if_false, Bool.false_eq_true,
          ite_true, ite_false]
      · exact dictLookup_dictInsert_ne cv' acc.1 (hne rfl)
      · exact dictLookup_dictInsert_ne cv' acc.2 (hne rfl)

/-- C1 counterexample: in `{"foo": "a", "foo__exact": "b"}` both keys address
field `foo` (with the exact lookup), both compile to dict key `foo`, and the
later one overwrites the earlier — the clause `foo = "a"` is lost from both
compiled outputs. -/
theorem basic_same_field_overwritten :
    (get_basic_filter_kwargs digitsToRat [("foo", "a"), ("foo__exact", "b")]).1
      = [("foo", FilterValue.str "b")] ∧
    ("foo", FilterValue.str "a") ∉
      (get_basic_filter_kwargs digitsToRat [("foo", "a"), ("foo__exact", "b")]).1 ∧
    ("foo", FilterValue.str "a") ∉
      (get_basic_filter_kwargs digitsToRat [("foo", "a"), ("foo__exact", "b")]).2 := by
  decide

/-- C1 amended: a resolved clause accumulates in the compiled include
(respectively exclude) output keyed by its compiled filter key (field plus
lookup suffix); clauses on the same field with distinct compiled filter keys
never overwrite one another, and a clause is lost only when a LATER parameter
entry compiles to the very same filter key in the same category, in which
case the later entry wins (e.g. `foo` vs `foo__exact`). -/
theorem basic_clause_preserved (pf : String → Option Rat)
    (before after : List (String × String)) (k v fk : String) (cv : FilterValue) (b : Bool)
    (hc : clauseOf pf k v = some (fk, cv, b))
    (hafter : ∀ k' v' cv', (k', v') ∈ after → clauseOf pf k' v' ≠ some (fk, cv', b)) :
    dictLookup (basicSide b (get_basic_filter_kwargs pf (before ++ (k, v) :: after))) fk
      = some cv := by
  unfold get_basic_filter_kwargs
  rw [basicGo_append]
  simp only [basicGo]
  rw [basicGo_preserve pf after _ fk b hafter]
  cases b <;>
    simp [basicStep, hc, basicSide, dictLookup_dictInsert_self]

theorem basic_clause_preserved_witness :
    clauseOf digitsToRat "age__gt" "3" = some ("age__gt", FilterValue.num 3, false) ∧
    dictLookup (basicSide false (get_basic_filter_kwargs digitsToRat
        [("name", "x"), ("age__gt", "3"), ("age__lt", "9")])) "age__gt"
      = some (FilterValue.num 3) := by
  refine ⟨by decide, ?_⟩
  refine basic_clause_preserved digitsToRat [("name", "x")] [("age__lt", "9")]
    "age__gt" "3" "age__gt" (FilterValue.num 3) false (by decide) ?_
  intro k' v' cv' hmem hceq
  rw [List.mem_singleton, Prod.mk.injEq] at hmem
  rw [hmem.1, hmem.2] at hceq
  rw [show clauseOf digitsToRat "age__lt" "9"
      = some ("age__lt", FilterValue.num 9, false) from by decide] at hceq
  rw [Option.some.injEq, Prod.mk.injEq] at hceq
  exact absurd hceq.1 (by decide)

theorem clauseOf_bad_none (pf : String → Option Rat) (k v : String)
    (h : ((resolve (if pyStartsWith k "!" then pyDrop k 1 else k)).2 = "range"
            ∧ (pySplit v ",").length ≠ 2)
         ∨ ((["gt", "gte", "lt", "lte"] : List String).contains
              (resolve (if pyStartsWith k "!" then pyDrop k 1 else k)).2
            ∧ pf v = none)) :
    clauseOf pf k v = none := by
  unfold clauseOf
  by_cases hr : RESERVED_KEYS.contains k
  · rw [if_pos hr]
  · rcases h with ⟨hlk, hlen⟩ | ⟨hlk, hpf⟩
    · simp [hr, hlk, hlen]
    · have h4 : (resolve (if pyStartsWith k "!" then pyDrop k 1 else k)).2 = "gt"
          ∨ (resolve (if pyStartsWith k "!" then pyDrop k 1 else k)).2 = "gte"
          ∨ (resolve (if pyStartsWith k "!" then pyDrop k 1 else k)).2 = "lt"
          ∨ (resolve (if pyStartsWith k "!" then pyDrop k 1 else k)).2 = "lte" := by
        simpa using hlk
      rcases h4 with h4 | h4 | h4 | h4 <;> simp [hr, h4, hpf]

/-- C5: a clause whose range value does not split into exactly two
comma-separated elements, or whose gt/gte/lt/lte value fails to parse as a
number, is silently dropped: the compiled output over the parameter list
with the offending entry equals the compiled output without it, so the other
clauses are unaffected and no failure is raised. -/
theorem dropped_clause_leaves_rest_unchanged (pf : String → Option Rat)
    (before after : List (String × String)) (k v : String)
    (h : ((resolve (if pyStartsWith k "!" then pyDrop k 1 else k)).2 = "range"
            ∧ (pySplit v ",").length ≠ 2)
         ∨ ((["gt", "gte", "lt", "lte"] : List String).contains
              (resolve (if pyStartsWith k "!" then pyDrop k 1 else k)).2
            ∧ pf v = none)) :
    get_basic_filter_kwargs pf (before ++ (k, v) :: after)
      = get_basic_filter_kwargs pf (before ++ after) := by
  have hnone := clauseOf_bad_none pf k v h
  unfold get_basic_filter_kwargs
  rw [basicGo_append, basicGo_append]
  simp only [basicGo, basicStep, hnone]

theorem dropped_clause_leaves_rest_unchanged_witness :
    ((resolve (if pyStartsWith "height__range" "!" then pyDrop "height__range" 1
        else "height__range")).2 = "range" ∧ (pySplit "1,2,3" ",").length ≠ 2) ∧
    get_basic_filter_kwargs digitsToRat
        [("name", "bob"), ("height__range", "1,2,3"), ("tags__in", "p,q")]
      = get_basic_filter_kwargs digitsToRat [("name", "bob"), ("tags__in", "p,q")] :=
  ⟨by decide,
   dropped_clause_leaves_rest_unchanged digitsToRat [("name", "bob")] [("tags__in", "p,q")]
     "height__range" "1,2,3" (Or.inl (by decide))⟩

theorem groupScan_pred_mem (gk : String) (fields : List String)
    (snap : List (String × String)) (k v : String)
    (hmem : dictLookup snap k = some v) (hpre : pyStartsWith k gk = true) :
    ∀ cur, groupPred fields (detectGroupLookup k) v ∈ (groupScan gk fields snap cur).1 := by
  induction snap with
  | nil => simp [dictLookup] at hmem
  | cons hd rest ih =>
    obtain ⟨k1, v1⟩ := hd
    intro cur
    simp only [dictLookup] at hmem
    by_cases hk : k1 = k
    · subst hk
      rw [if_pos rfl] at hmem
      injection hmem with hv
      subst hv
      simp only [groupScan, hpre, if_true]
      exact List.mem_cons_self _ _
    · rw [if_neg hk] at hmem
      simp only [groupScan]
      by_cases hs : pyStartsWith k1 gk = true
      · simp only [hs, if_true]
        exact List.mem_cons_of_mem _ (ih hmem _)
      · simp only [hs, if_false]
        exact ih hmem _

theorem groupScan_none_preserved (gk : String) (fields : List String)
    (snap : List (String × String)) (k : String) :
    ∀ cur, dictLookup cur k = none → dictLookup (groupScan gk fields snap cur).2 k = none := by
  induction snap with
  | nil => intro cur h; simpa [groupScan] using h
  | cons hd rest ih =>
    obtain ⟨k1, v1⟩ := hd
    intro cur h
    simp only [groupScan]
    by_cases hs : pyStartsWith k1 gk = true
    · simp only [hs, if_true]
      exact ih _ (dictLookup_dictRemove_of_none k1 k cur h)
    · simp only [hs, if_false]
      exact ih _ h

theorem groupScan_keys_sublist (gk : String) (fields : List String)
    (snap : List (String × String)) :
    ∀ cur, (((groupScan gk fields snap cur).2).map Prod.fst).Sublist (cur.map Prod.fst) := by
  induction snap with
  | nil => intro cur; simp [groupScan]
  | cons hd rest ih =>
    obtain ⟨k1, v1⟩ := hd
    intro cur
    simp only [groupScan]
    by_cases hs : pyStartsWith k1 gk = true
    · simp only [hs, if_true]
      exact (ih (dictRemove k1 cur)).trans (dictRemove_keys_sublist k1 cur)
    · simp only [hs, if_false]
      exact ih cur

theorem groupScan_removes (gk : String) (fields : List String)
    (snap : List (String × String)) (k v : String)
    (hmem : dictLookup snap k = some v) (hpre : pyStartsWith k gk = true) :
    ∀ cur, ((cur.map Prod.fst).Nodup) →
      dictLookup (groupScan gk fields snap cur).2 k = none := by
  induction snap with
  | nil => simp [dictLookup] at hmem
  | cons hd rest ih =>
    obtain ⟨k1, v1⟩ := hd
    intro cur hnd
    simp only [dictLookup] at hmem
    by_cases hk : k1 = k
    · subst hk
      simp only [groupScan, hpre, if_true]
      exact groupScan_none_preserved gk fields rest k1 _
        (dictLookup_dictRemove_self k1 cur hnd)
    · rw [if_neg hk] at hmem
      simp only [groupScan]
      by_cases hs : pyStartsWith k1 gk = true
      · simp only [hs, if_true]
        exact ih hmem _ (hnd.sublist (dictRemove_keys_sublist k1 cur))
      · simp only [hs, if_false]
        exact ih hmem _ hnd

theorem apply_grouped_filters_append (gs1 gs2 : List (String × List String))
    (filters : List (String × String)) :
    apply_grouped_filters (gs1 ++ gs2) filters
      = ((apply_grouped_filters gs1 filters).1
           ++ (apply_grouped_filters gs2 (apply_grouped_filters gs1 filters).2).1,
         (apply_grouped_filters gs2 (apply_grouped_filters gs1 filters).2).2) := by
  induction gs1 generalizing filters with
  | nil => simp [apply_grouped_filters]
  | cons hd rest ih =>
    obtain ⟨gk, fields⟩ := hd
    simp only [List.cons_append, apply_grouped_filters, List.append_eq, ih, List.append_assoc]

theorem apply_none_preserved (gs : List (String × List String))
    (filters : List (String × String)) (k : String)
    (h : dictLookup filters k = none) :
    dictLookup (apply_grouped_filters gs filters).2 k = none := by
  induction gs generalizing filters with
  | nil => simpa [apply_grouped_filters] using h
  | cons hd rest ih =>
    obtain ⟨gk, fields⟩ := hd
    simp only [apply_grouped_filters]
    exact ih _ (groupScan_none_preserved gk fields filters k filters h)

theorem apply_keys_nodup (gs : List (String × List String))
    (filters : List (String × String)) (hnd : (filters.map Prod.fst).Nodup) :
    (((apply_grouped_filters gs filters).2).map Prod.fst).Nodup := by
  induction gs generalizing filters with
  | nil => simpa [apply_grouped_filters] using hnd
  | cons hd rest ih =>
    obtain ⟨gk, fields⟩ := hd
    simp only [apply_grouped_filters]
    exact ih _ (hnd.sublist (groupScan_keys_sublist gk fields filters filters))

/-- C2: when the grouped stage reaches a declared group, every key of the
working parameter map that starts with the group key (prefix match) yields
exactly the OR-predicate over the group's member fields — with the lookup
detected from the key and the key's single raw value — among the
conjunctively applied grouped predicates, and that key is removed from the
working map the pipeline hands to the Basic Filter Compiler, so it is never
re-processed there. -/
theorem grouped_key_consumed (gs1 gs2 : List (String × List String)) (gk : String)
    (fields : List String) (filters : List (String × String)) (k v : String)
    (hnd : (filters.map Prod.fst).Nodup)
    (hmem : dictLookup (apply_grouped_filters gs1 filters).2 k = some v)
    (hpre : pyStartsWith k gk = true) :
    groupPred fields (detectGroupLookup k) v
        ∈ (apply_grouped_filters (gs1 ++ (gk, fields) :: gs2) filters).1
    ∧ dictLookup (apply_grouped_filters (gs1 ++ (gk, fields) :: gs2) filters).2 k = none := by
  have hnd1 : (((apply_grouped_filters gs1 filters).2).map Prod.fst).Nodup :=
    apply_keys_nodup gs1 filters hnd
  rw [apply_grouped_filters_append]
  constructor
  · apply List.mem_append_right
    simp only [apply_grouped_filters]
    apply List.mem_append_left
    exact groupScan_pred_mem gk fields _ k v hmem hpre _
  · simp only [apply_grouped_filters]
    exact apply_none_preserved gs2 _ k
      (groupScan_removes gk fields _ k v hmem hpre _ hnd1)

theorem grouped_key_consumed_witness :
    ((([("name__istartswith", "al"), ("age", "5")] : List (String × String)).map Prod.fst).Nodup
      ∧ dictLookup (apply_grouped_filters [] [("name__istartswith", "al"), ("age", "5")]).2
          "name__istartswith" = some "al"
      ∧ pyStartsWith "name__istartswith" "name" = true)
    ∧ groupPred ["first_name", "last_name"] (detectGroupLookup "name__istartswith") "al"
        ∈ (apply_grouped_filters [("name", ["first_name", "last_name"])]
            [("name__istartswith", "al"), ("age", "5")]).1
    ∧ dictLookup (apply_grouped_filters [("name", ["first_name", "last_name"])]
          [("name__istartswith", "al"), ("age", "5")]).2 "name__istartswith" = none :=
  ⟨⟨by decide, by decide, by decide⟩,
   grouped_key_consumed [] [] "name" ["first_name", "last_name"]
     [("name__istartswith", "al"), ("age", "5")] "name__istartswith" "al"
     (by decide) (by decide) (by decide)⟩

theorem groupScan_pred_shape (gk : String) (fields : List String)
    (snap : List (String × String)) (p : Pred) :
    ∀ cur, p ∈ (groupScan gk fields snap cur).1 →
      ∃ k v, (k, v) ∈ snap ∧ pyStartsWith k gk = true
        ∧ p = groupPred fields (detectGroupLookup k) v := by
  induction snap with
  | nil => intro cur hp; simp [groupScan] at hp
  | cons hd rest ih =>
    obtain ⟨k1, v1⟩ := hd
    intro cur hp
    simp only [groupScan] at hp
    by_cases hs : pyStartsWith k1 gk = true
    · simp only [hs, if_true, List.mem_cons] at hp
      rcases hp with rfl | hp
      · exact ⟨k1, v1, List.mem_cons_self _ _, hs, rfl⟩
      · obtain ⟨k, v, hkv, hsk, hpeq⟩ := ih _ hp
        exact ⟨k, v, List.mem_cons_of_mem _ hkv, hsk, hpeq⟩
    · simp only [hs, if_false] at hp
      obtain ⟨k, v, hkv, hsk, hpeq⟩ := ih _ hp
      exact ⟨k, v, List.mem_cons_of_mem _ hkv, hsk, hpeq⟩

theorem groupScan_entries_sublist (gk : String) (fields : List String)
    (snap : List (String × String)) :
    ∀ cur, ((groupScan gk fields snap cur).2).Sublist cur := by
  induction snap with
  | nil => intro cur; simp [groupScan]
  | cons hd rest ih =>
    obtain ⟨k1, v1⟩ := hd
    intro cur
    simp only [groupScan]
    by_cases hs : pyStartsWith k1 gk = true
    · simp only [hs, if_true]
      exact (ih (dictRemove k1 cur)).trans (dictRemove_sublist k1 cur)
    · simp only [hs, if_false]
      exact ih cur

/-- C10: the Grouped Filter Compiler applies no value coercion at all —
every keyword condition of every emitted OR-predicate carries the raw string
value of some entry of the working parameter map, unchanged, whatever lookup
was detected (so `name__in=a,b` filters on the literal string `"a,b"` rather
than the list the Basic Filter Compiler would have produced). -/
theorem grouped_values_uncoerced (gs : List (String × List String))
    (filters : List (String × String)) (p : Pred) (c : String × FilterValue)
    (hp : p ∈ (apply_grouped_filters gs filters).1) (hc : c ∈ p) :
    ∃ k v, (k, v) ∈ filters ∧ c.2 = FilterValue.str v := by
  induction gs generalizing filters with
  | nil => simp [apply_grouped_filters] at hp
  | cons hd rest ih =>
    obtain ⟨gk, fields⟩ := hd
    simp only [apply_grouped_filters] at hp
    rcases List.mem_append.mp hp with h1 | h2
    · obtain ⟨k, v, hkv, hsk, rfl⟩ := groupScan_pred_shape gk fields filters p filters h1
      obtain ⟨f, hf, hfc⟩ := List.mem_map.mp hc
      exact ⟨k, v, hkv, by rw [← hfc]⟩
    · obtain ⟨k, v, hkv, hcv⟩ := ih _ h2
      exact ⟨k, v, (groupScan_entries_sublist gk fields filters filters).subset hkv, hcv⟩

theorem grouped_values_uncoerced_witness :
    ([("first_name__in", FilterValue.str "a,b"), ("last_name__in", FilterValue.str "a,b")]
        ∈ (apply_grouped_filters [("name", ["first_name", "last_name"])] [("name__in", "a,b")]).1
      ∧ (("first_name__in", FilterValue.str "a,b") : String × FilterValue)
          ∈ [("first_name__in", FilterValue.str "a,b"), ("last_name__in", FilterValue.str "a,b")])
    ∧ ∃ k v, (k, v) ∈ ([("name__in", "a,b")] : List (String × String))
        ∧ (("first_name__in", FilterValue.str "a,b") : String × FilterValue).2
            = FilterValue.str v :=
  ⟨⟨by decide, by decide⟩,
   grouped_values_uncoerced [("name", ["first_name", "last_name"])] [("name__in", "a,b")]
     [("first_name__in", FilterValue.str "a,b"), ("last_name__in", FilterValue.str "a,b")]
     ("first_name__in", FilterValue.str "a,b") (by decide) (by decide)⟩

/-- C3: any exception from the grouped-filter, basic-filter or search stages
(including the final `distinct()` call) that is a value/validation error is
caught and re-raised as the single aggregated invalid-filter-parameters
validation error — the pipeline then yields an error, never a partial
queryset — while every other exception propagates unchanged. -/
theorem value_errors_aggregated {QS : Type} (st : Store QS) (pf : String → Option Rat)
    (groups : List (String × List String)) (search_fields : List String)
    (request_filters : List (String × String)) (qs : QS) (e : PyExc)
    (h : filterBody st pf groups search_fields request_filters qs = Except.error e) :
    (e.isValueOrValidation = true →
      filter_queryset st pf groups search_fields request_filters qs
        = Except.error (PyExc.validationError ("Invalid filter parameters: " ++ e.msgOf)))
    ∧ (e.isValueOrValidation = false →
      filter_queryset st pf groups search_fields request_filters qs = Except.error e) := by
  unfold filter_queryset
  rw [h]
  cases e <;> simp [PyExc.isValueOrValidation, PyExc.msgOf]

/-- A data store whose `filter` call raises a `ValueError`, as a Django
queryset does on a malformed predicate. -/
def unitFailStore : Store Unit where
  filterP := fun _ _ => Except.error (PyExc.valueError "boom")
  filterKw := fun q _ => Except.ok q
  excludeKw := fun q _ => Except.ok q
  distinctQ := fun q => Except.ok q

theorem value_errors_aggregated_witness :
    PyExc.isValueOrValidation (PyExc.valueError "boom") = true ∧
    filter_queryset unitFailStore digitsToRat [("name", ["a"])] [] [("name", "x")] ()
      = Except.error (PyExc.validationError "Invalid filter parameters: boom") :=
  ⟨rfl,
   (value_errors_aggregated unitFailStore digitsToRat [("name", ["a"])] [] [("name", "x")] ()
     (PyExc.valueError "boom") (by decide)).1 rfl⟩

/-- C8: the page number is the parsed integer of the `page` parameter used
as-is — no clamping to ≥ 1 — defaulting to 1 both when the parameter is
absent and when it is present but does not parse as an integer; and whenever
the resolved number is not a valid page for the result set and the resolved
size (outside `[1, total_page_count]`), pagination fails with the
invalid-page error instead of clamping to a valid page. -/
theorem invalid_page_raises (parseInt : String → Option Int)
    (filters : List (String × String)) (page_size_attr : Option Int) (max_page_size : Int)
    (count : Int) (s : String) (n : Int)
    (hs : dictLookup filters "page" = some s)
    (hn : parseInt s = some n)
    (hinv : paginatorPageValid count
        (get_page_size parseInt filters page_size_attr max_page_size) n = false) :
    get_page_number parseInt filters = n
    ∧ paginate_queryset parseInt filters page_size_attr max_page_size count
        = Except.error (PyExc.validationError "Invalid page number: invalid page")
    ∧ (∀ filters2 : List (String × String), dictLookup filters2 "page" = none →
        get_page_number parseInt filters2 = 1)
    ∧ (∀ (filters2 : List (String × String)) (s2 : String),
        dictLookup filters2 "page" = some s2 → parseInt s2 = none →
        get_page_number parseInt filters2 = 1) := by
  have hpn : get_page_number parseInt filters = n := by
    simp only [get_page_number, hs, hn]
  refine ⟨hpn, ?_, ?_, ?_⟩
  · unfold paginate_queryset
    dsimp only
    rw [hpn, hinv]
    simp
  · intro f2 h2
    simp only [get_page_number, h2]
  · intro f2 s2 h2 hp2
    simp only [get_page_number, h2, hp2]

theorem invalid_page_raises_witness :
    (dictLookup [("page", "99")] "page" = some "99"
      ∧ strToInt "99" = some 99
      ∧ paginatorPageValid 5 (get_page_size strToInt [("page", "99")] (some 10) 1000) 99
          = false)
    ∧ get_page_number strToInt [("page", "99")] = 99
    ∧ paginate_queryset strToInt [("page", "99")] (some 10) 1000 5
        = Except.error (PyExc.validationError "Invalid page number: invalid page")
    ∧ (∀ filters2 : List (String × String), dictLookup filters2 "page" = none →
        get_page_number strToInt filters2 = 1)
    ∧ (∀ (filters2 : List (String × String)) (s2 : String),
        dictLookup filters2 "page" = some s2 → strToInt s2 = none →
        get_page_number strToInt filters2 = 1) :=
  ⟨⟨by decide, by decide, by decide⟩,
   invalid_page_raises strToInt [("page", "99")] (some 10) 1000 5 "99" 99
     (by decide) (by decide) (by decide)⟩

theorem list_getD_set_ne {α : Type} (l : List α) (i j : Nat) (a d : α) (h : i ≠ j) :
    (l.set i a).getD j d = l.getD j d := by
  induction l generalizing i j with
  | nil => simp
  | cons hd tl ih =>
    cases i with
    | zero =>
      cases j with
      | zero => exact absurd rfl h
      | succ j2 => simp [List.set]
    | succ i2 =>
      cases j with
      | zero => simp [List.set]
      | succ j2 =>
        simp only [List.set, List.getD_cons_succ]
        exact ih i2 j2 (fun hh => h (by rw [hh]))

theorem list_getD_append_left {α : Type} (l l' : List α) (n : Nat) (d : α)
    (h : n < l.length) : (l ++ l').getD n d = l.getD n d := by
  induction l generalizing n with
  | nil => simp at h
  | cons hd tl ih =>
    cases n with
    | zero => simp
    | succ n2 =>
      simp only [List.cons_append, List.getD_cons_succ]
      exact ih n2 (by simpa using h)

theorem groupScanH_get_ne (gk : String) (fields : List String)
    (snap : List (String × String)) (r r' : Nat) (hne : r' ≠ r) :
    ∀ h : Heap, ((groupScanH gk fields snap h r).1).get r' = h.get r' := by
  induction snap with
  | nil => intro h; simp [groupScanH]
  | cons hd rest ih =>
    obtain ⟨k, v⟩ := hd
    intro h
    simp only [groupScanH]
    by_cases hs : pyStartsWith k gk = true
    · simp only [hs, if_true]
      rw [ih _]
      unfold Heap.set Heap.get
      exact list_getD_set_ne _ r r' _ _ (fun hh => hne hh.symm)
    · simp only [hs, if_false]
      exact ih h

theorem applyH_get_ne (gs : List (String × List String)) (r r' : Nat) (hne : r' ≠ r) :
    ∀ h : Heap, ((apply_grouped_filtersH gs h r).1).get r' = h.get r' := by
  induction gs with
  | nil => intro h; simp [apply_grouped_filtersH]
  | cons hd rest ih =>
    obtain ⟨gk, fields⟩ := hd
    intro h
    simp only [apply_grouped_filtersH]
    rw [ih _, groupScanH_get_ne gk fields _ r r' hne h]

/-- C9: the caller's incoming parameter map is never mutated by the filter
pipeline — the orchestrator allocates a fresh working copy
(`filters = dict(request.filters)`), the grouped stage's key removals write
only to that copy, and the dict the caller's reference points to is
identical before and after filtering. -/
theorem request_filters_not_mutated (pf : String → Option Rat)
    (groups : List (String × List String)) (search_fields : List String)
    (h : Heap) (requestRef : Nat) (hr : requestRef < h.cells.length) :
    ((filter_querysetH pf groups search_fields h requestRef).1).get requestRef
      = h.get requestRef := by
  have hne : requestRef ≠ h.cells.length := Nat.ne_of_lt hr
  show (apply_grouped_filtersH groups ⟨h.cells ++ [h.get requestRef]⟩ h.cells.length).1.get
      requestRef = h.get requestRef
  rw [applyH_get_ne groups h.cells.length requestRef hne]
  unfold Heap.get
  exact list_getD_append_left _ _ _ _ hr

theorem request_filters_not_mutated_witness :
    (0 < (Heap.mk [[("name", "x"), ("age", "5")]]).cells.length) ∧
    ((filter_querysetH digitsToRat [("name", ["first_name"])] []
        (Heap.mk [[("name", "x"), ("age", "5")]]) 0).1).get 0
      = (Heap.mk [[("name", "x"), ("age", "5")]]).get 0 :=
  ⟨by decide,
   request_filters_not_mutated digitsToRat [("name", ["first_name"])] []
     (Heap.mk [[("name", "x"), ("age", "5")]]) 0 (by decide)⟩
